import Mathlib

/-!
Shallow embedding of the face-tracking control repository
(`tracking_motors.py` and `monitor_detections.py`).

Conventions of the embedding:
* Python floats are modelled as exact rationals (`ℚ`); all constants of the
  source are small decimal literals, so this is lossless.
* Python ints are `Int`, Python string cells are `String`.
* Fallible parsing (`int(...)`, `float(...)`) is modelled with `Option`:
  `none` is a cell whose parse raises.
* Hardware writes (`kit.servo[i].angle = ...`) carry no feedback into the
  program state, so the state of the control loop is exactly the triple of
  module-level angle variables plus the bookkeeping variables of
  `track_face` / `check_detection_conflicts`.
* The only non-rational operation of the source is the `** 0.5` square root
  inside `check_detection_conflicts`, used purely to *compare* distances.
  Since the real square root is strictly monotone on nonnegative reals,
  comparing the roots is equivalent to comparing the squares; the embedding
  therefore keeps the squared Euclidean distances and compares those.
-/

namespace TappasFace

/-! ## SETTINGS section of tracking_motors.py -/

def IMAGE_WIDTH : Int := 640

def IMAGE_HEIGHT : Int := 360

def INITIAL_SERVO0_ANGLE : ℚ := 120

def INITIAL_SERVO1_ANGLE : ℚ := 95

def INITIAL_ARM_ANGLE : ℚ := 90

def DEADZONE_X : ℚ := 60

def DEADZONE_Y : ℚ := 40

/-- `K_P = 0.5` (written as a ratio so that the value is kernel-transparent). -/
def K_P : ℚ := mkRat 1 2

/-- `SERVO_STEP = 1.5` (written as a ratio so that the value is kernel-transparent). -/
def SERVO_STEP : ℚ := mkRat 3 2

/-- `CENTRE_X = IMAGE_WIDTH // 2` (Python floor division on ints). -/
def CENTRE_X : Int := IMAGE_WIDTH / 2

/-- `CENTRE_Y = IMAGE_HEIGHT // 2`. -/
def CENTRE_Y : Int := IMAGE_HEIGHT / 2

def DETECTION_WINDOW : ℚ := 1

def CONFLICT_THRESHOLD : ℕ := 3

/-! ## Actuator state and low-level write helpers -/

/-- The three module-level angle variables of tracking_motors.py:
`servo0_angle`, `servo1_angle`, `arm_angle`. -/
structure ActState where
  servo0 : ℚ
  servo1 : ℚ
  arm : ℚ
  deriving Repr, DecidableEq

/-- The initial assignment `servo0_angle, servo1_angle, arm_angle =
INITIAL_SERVO0_ANGLE, INITIAL_SERVO1_ANGLE, INITIAL_ARM_ANGLE`. -/
def initActState : ActState :=
  { servo0 := INITIAL_SERVO0_ANGLE
    servo1 := INITIAL_SERVO1_ANGLE
    arm := INITIAL_ARM_ANGLE }

/-- All three tracked joint angles lie in the hardware range [0, 180]. -/
def ActState.inRange (st : ActState) : Prop :=
  0 ≤ st.servo0 ∧ st.servo0 ≤ 180 ∧
  0 ≤ st.servo1 ∧ st.servo1 ≤ 180 ∧
  0 ≤ st.arm ∧ st.arm ≤ 180

instance (st : ActState) : Decidable st.inRange := by
  unfold ActState.inRange; infer_instance

/-- The Python clamp idiom `max(0, min(180, angle))`. -/
def clamp180 (a : ℚ) : ℚ := max 0 (min 180 a)

/-- `set_arm_position(kit, angle)`: raises `ValueError` when the angle is
outside [0, 180] (modelled as `none`), otherwise commands servo 3 to `angle`
and servo 2 to `180 - angle` (modelled as the returned pair of writes). -/
def set_arm_position (angle : ℚ) : Option (ℚ × ℚ) :=
  if angle < 0 ∨ 180 < angle then none
  else some (angle, 180 - angle)

/-- The `deadzones` dictionary: every key maps to `(999, -1)`. -/
def deadzones (_key : String) : ℚ × ℚ := (999, -1)

/-- `in_deadzone(angle, deadzone)`. -/
def in_deadzone (angle : ℚ) (deadzone : ℚ × ℚ) : Bool :=
  if deadzone.1 ≤ deadzone.2 then
    decide (deadzone.1 ≤ angle ∧ angle ≤ deadzone.2)
  else false

/-- `set_servo_angle_with_deadzone(servo_index, angle, deadzone_key)`:
clamps the angle, then issues the single hardware write unless the clamped
angle falls in the (never-firing) inert band. The returned list is the list
of written angles. -/
def set_servo_angle_with_deadzone (angle : ℚ) (deadzone_key : String) :
    List ℚ :=
  let a := clamp180 angle
  if ¬ in_deadzone a (deadzones deadzone_key) then [a] else []

/-- `set_arm_angle_with_deadzone(angle)`: clamps, then calls
`set_arm_position` unless in the inert band. `none` models the
`ValueError` escaping; `some ws` the issued writes. -/
def set_arm_angle_with_deadzone (angle : ℚ) : Option (List (ℚ × ℚ)) :=
  let a := clamp180 angle
  if ¬ in_deadzone a (deadzones "arm") then
    match set_arm_position a with
    | none => none
    | some w => some [w]
  else some []

/-! ## Control law (`adjust_servo_angles_using_old_logic`) -/

/-- The horizontal branch: `delta_servo1` as a function of `error_x`. -/
def delta_servo1_of (error_x : ℚ) : ℚ :=
  if DEADZONE_X < |error_x| then
    max (-SERVO_STEP) (min SERVO_STEP (K_P * error_x))
  else 0

/-- The vertical branch: `delta_servo0` as a function of `error_y`. -/
def delta_servo0_of (error_y : ℚ) : ℚ :=
  if DEADZONE_Y < |error_y| then
    max (-SERVO_STEP) (min SERVO_STEP (K_P * error_y))
  else 0

/-- `adjust_servo_angles_using_old_logic(target_x, target_y)` acting on the
three module-level angles. Faithful translation: note that the source
computes `new_servo0_angle = servo0_angle - delta_servo0` (minus), sets
`servo0_moved = False` only when `(delta_servo0 < 0 and new_servo0_angle <= 0)`
or `(delta_servo0 > 0 and new_servo0_angle >= 180)`, and moves the arm only
in the not-moved case. -/
def adjust_servo_angles_using_old_logic (st : ActState) (target_x target_y : ℚ) :
    ActState :=
  let error_x : ℚ := (CENTRE_X : ℚ) - target_x
  let error_y : ℚ := (CENTRE_Y : ℚ) - target_y
  let delta_servo1 := delta_servo1_of error_x
  let delta_servo0 := delta_servo0_of error_y
  let new_servo1 := clamp180 (st.servo1 + delta_servo1)
  let new_servo0 := clamp180 (st.servo0 - delta_servo0)
  if (delta_servo0 < 0 ∧ new_servo0 ≤ 0) ∨ (delta_servo0 > 0 ∧ 180 ≤ new_servo0) then
    -- servo0_moved = False: servo0_angle is left alone and the arm moves
    let new_arm :=
      if delta_servo0 < 0 ∧ new_servo0 ≤ 0 then max 0 (st.arm + -SERVO_STEP)
      else if delta_servo0 > 0 ∧ 180 ≤ new_servo0 then min 180 (st.arm + SERVO_STEP)
      else st.arm
    { servo0 := st.servo0, servo1 := new_servo1, arm := new_arm }
  else
    -- servo0_moved = True: servo0_angle := new_servo0, arm untouched
    { servo0 := new_servo0, servo1 := new_servo1, arm := st.arm }

/-! ## Neutral-return cleanup (`cleanup_servos`) -/

/-- One iteration of the `cleanup_servos` loop at index `i`
(10 interpolation steps toward the 90° neutral pose). -/
def cleanup_step (st : ActState) (i : ℕ) : ActState :=
  { servo0 := st.servo0 + (90 - st.servo0) / (10 - (i : ℚ))
    servo1 := st.servo1 + (90 - st.servo1) / (10 - (i : ℚ))
    arm := st.arm + (90 - st.arm) / (10 - (i : ℚ)) }

/-- `cleanup_servos()`: `for i in range(steps)` with `steps = 10`. -/
def cleanup_servos (st : ActState) : ActState :=
  (List.range 10).foldl cleanup_step st

/-! ## Helper lemmas about the actuator layer -/

theorem clamp180_mem (a : ℚ) : 0 ≤ clamp180 a ∧ clamp180 a ≤ 180 :=
  ⟨le_max_left 0 _, max_le (by norm_num) (min_le_left _ _)⟩

theorem clamp180_eq_self {a : ℚ} (h0 : 0 ≤ a) (h1 : a ≤ 180) : clamp180 a = a := by
  unfold clamp180
  rw [min_eq_right h1, max_eq_right h0]

theorem delta1_dz {e : ℚ} (h : |e| ≤ DEADZONE_X) : delta_servo1_of e = 0 := by
  unfold delta_servo1_of
  rw [if_neg (not_lt.mpr h)]

theorem delta0_dz {e : ℚ} (h : |e| ≤ DEADZONE_Y) : delta_servo0_of e = 0 := by
  unfold delta_servo0_of
  rw [if_neg (not_lt.mpr h)]

theorem delta1_sat {e : ℚ} (h : DEADZONE_X < |e|) : |delta_servo1_of e| = SERVO_STEP := by
  unfold delta_servo1_of
  rw [if_pos h]
  rcases lt_abs.mp h with he | he
  · rw [show min SERVO_STEP (K_P * e) = SERVO_STEP by
        apply min_eq_left
        rw [SERVO_STEP, K_P] at *
        rw [DEADZONE_X] at he
        norm_num at *
        linarith,
      show max (-SERVO_STEP) SERVO_STEP = SERVO_STEP by
        apply max_eq_right
        rw [SERVO_STEP]; norm_num]
    rw [abs_of_nonneg (by rw [SERVO_STEP]; norm_num)]
  · rw [show min SERVO_STEP (K_P * e) = K_P * e by
        apply min_eq_right
        rw [SERVO_STEP, K_P, DEADZONE_X] at *
        norm_num at *
        linarith,
      show max (-SERVO_STEP) (K_P * e) = -SERVO_STEP by
        apply max_eq_left
        rw [SERVO_STEP, K_P, DEADZONE_X] at *
        norm_num at *
        linarith]
    rw [abs_neg, abs_of_nonneg (by rw [SERVO_STEP]; norm_num)]

theorem delta0_sat {e : ℚ} (h : DEADZONE_Y < |e|) : |delta_servo0_of e| = SERVO_STEP := by
  unfold delta_servo0_of
  rw [if_pos h]
  rcases lt_abs.mp h with he | he
  · rw [show min SERVO_STEP (K_P * e) = SERVO_STEP by
        apply min_eq_left
        rw [SERVO_STEP, K_P] at *
        rw [DEADZONE_Y] at he
        norm_num at *
        linarith,
      show max (-SERVO_STEP) SERVO_STEP = SERVO_STEP by
        apply max_eq_right
        rw [SERVO_STEP]; norm_num]
    rw [abs_of_nonneg (by rw [SERVO_STEP]; norm_num)]
  · rw [show min SERVO_STEP (K_P * e) = K_P * e by
        apply min_eq_right
        rw [SERVO_STEP, K_P, DEADZONE_Y] at *
        norm_num at *
        linarith,
      show max (-SERVO_STEP) (K_P * e) = -SERVO_STEP by
        apply max_eq_left
        rw [SERVO_STEP, K_P, DEADZONE_Y] at *
        norm_num at *
        linarith]
    rw [abs_neg, abs_of_nonneg (by rw [SERVO_STEP]; norm_num)]

theorem adjust_inRange (st : ActState) (tx ty : ℚ) (h : st.inRange) :
    (adjust_servo_angles_using_old_logic st tx ty).inRange := by
  obtain ⟨h0, h1, h2, h3, h4, h5⟩ := h
  simp only [adjust_servo_angles_using_old_logic, ActState.inRange]
  split
  · refine ⟨h0, h1, (clamp180_mem _).1, (clamp180_mem _).2, ?_⟩
    split
    · constructor
      · exact le_max_left 0 _
      · apply max_le (by norm_num)
        rw [SERVO_STEP]
        norm_num
        linarith
    · split
      · constructor
        · apply le_min (by norm_num)
          rw [SERVO_STEP]
          norm_num
          linarith
        · exact min_le_left _ _
      · exact ⟨h4, h5⟩
  · exact ⟨(clamp180_mem _).1, (clamp180_mem _).2, (clamp180_mem _).1, (clamp180_mem _).2, h4, h5⟩

/-- The saturation-fallback branch of `adjust_servo_angles_using_old_logic` is dead
code: whenever `servo0_angle` is inside the hardware range, `servo0_moved` is set to
`True`, because `new_servo0_angle = servo0_angle - delta_servo0` moves *against* the
sign carried by the guard (`delta < 0` raises the angle above 0, `delta > 0` lowers it
below 180), so the linked arm joint is never touched by the control law. -/
theorem adjust_arm_eq (st : ActState) (tx ty : ℚ)
    (h0 : 0 ≤ st.servo0) (h1 : st.servo0 ≤ 180) :
    (adjust_servo_angles_using_old_logic st tx ty).arm = st.arm := by
  simp only [adjust_servo_angles_using_old_logic]
  have hfalse : ¬((delta_servo0_of ((CENTRE_Y : ℚ) - ty) < 0 ∧
      clamp180 (st.servo0 - delta_servo0_of ((CENTRE_Y : ℚ) - ty)) ≤ 0) ∨
      (delta_servo0_of ((CENTRE_Y : ℚ) - ty) > 0 ∧
      180 ≤ clamp180 (st.servo0 - delta_servo0_of ((CENTRE_Y : ℚ) - ty)))) := by
    rintro (⟨hd, hc⟩ | ⟨hd, hc⟩)
    · have hx : 0 < st.servo0 - delta_servo0_of ((CENTRE_Y : ℚ) - ty) := by linarith
      have : 0 < clamp180 (st.servo0 - delta_servo0_of ((CENTRE_Y : ℚ) - ty)) := by
        unfold clamp180
        exact lt_max_of_lt_right (lt_min (by norm_num) hx)
      linarith
    · have hx : st.servo0 - delta_servo0_of ((CENTRE_Y : ℚ) - ty) < 180 := by linarith
      have : clamp180 (st.servo0 - delta_servo0_of ((CENTRE_Y : ℚ) - ty)) < 180 := by
        unfold clamp180
        exact max_lt (by norm_num) (min_lt_of_right_lt hx)
      linarith
  rw [if_neg hfalse]

theorem interp_mem {s k : ℚ} (hk : 1 ≤ k) (h0 : 0 ≤ s) (h1 : s ≤ 180) :
    0 ≤ s + (90 - s) / k ∧ s + (90 - s) / k ≤ 180 := by
  have hk0 : 0 < k := lt_of_lt_of_le one_pos hk
  have e : s + (90 - s) / k = (s * (k - 1) + 90) / k := by
    field_simp
    ring
  rw [e]
  constructor
  · apply div_nonneg _ (le_of_lt hk0)
    nlinarith
  · rw [div_le_iff₀ hk0]
    nlinarith

theorem cleanup_step_inRange (st : ActState) (i : ℕ) (hi : i < 10) (h : st.inRange) :
    (cleanup_step st i).inRange := by
  obtain ⟨h0, h1, h2, h3, h4, h5⟩ := h
  have hk : (1 : ℚ) ≤ 10 - (i : ℚ) := by
    have : (i : ℚ) ≤ 9 := by exact_mod_cast Nat.lt_succ_iff.mp hi
    linarith
  unfold cleanup_step ActState.inRange
  exact ⟨(interp_mem hk h0 h1).1, (interp_mem hk h0 h1).2,
    (interp_mem hk h2 h3).1, (interp_mem hk h2 h3).2,
    (interp_mem hk h4 h5).1, (interp_mem hk h4 h5).2⟩

theorem cleanup_fold_inRange (l : List ℕ) (hl : ∀ i ∈ l, i < 10) :
    ∀ st : ActState, st.inRange → (l.foldl cleanup_step st).inRange := by
  induction l with
  | nil => intro st h; exact h
  | cons a t ih =>
    intro st h
    exact ih (fun i hi => hl i (List.mem_cons_of_mem a hi))
      _ (cleanup_step_inRange st a (hl a (List.mem_cons_self a t)) h)

theorem cleanup_inRange (st : ActState) (h : st.inRange) : (cleanup_servos st).inRange := by
  unfold cleanup_servos
  exact cleanup_fold_inRange _ (by intro i hi; simpa using List.mem_range.mp hi) st h

/-! ## Claims about the actuator layer -/

/-- C1. The claim states that with the vertical joint pinned at its lower limit 0, a
further tick whose vertical error exceeds the dead-zone and pushes the joint downward
leaves servo0 at 0 and moves the arm joint by one SERVO_STEP. The code does not do
this: at state (servo0 = 0, servo1 = 95, arm = 90) a target (320, 0) gives
`delta_servo0 = +SERVO_STEP` (pushing the joint below 0); servo0 stays pinned at 0,
but the arm also stays at 90 — the fallback never fires because the `servo0_moved`
guard pairs `delta_servo0 < 0` with `new_servo0_angle <= 0`, which is unsatisfiable
under `new_servo0_angle = servo0_angle - delta_servo0` (cf. `adjust_arm_eq`). In the
opposite direction, target (320, 360) gives `delta_servo0 = -SERVO_STEP` and servo0
*leaves* the limit (0 → 1.5), again without arm motion. -/
theorem claim_C1_saturation_eval :
    adjust_servo_angles_using_old_logic ⟨0, 95, 90⟩ 320 0 = ⟨0, 95, 90⟩ ∧
    adjust_servo_angles_using_old_logic ⟨0, 95, 90⟩ 320 360 = ⟨mkRat 3 2, 95, 90⟩ := by
  constructor <;>
    norm_num [adjust_servo_angles_using_old_logic, delta_servo0_of, delta_servo1_of,
      clamp180, CENTRE_X, CENTRE_Y, IMAGE_WIDTH, IMAGE_HEIGHT, SERVO_STEP, K_P,
      DEADZONE_X, DEADZONE_Y]

/-- C6 (counterexample). An error of magnitude exactly 10 × SERVO_STEP = 15 pixels is
*inside* both dead-zones (15 ≤ 40 ≤ 60), so the per-axis delta is 0, not SERVO_STEP as
the claim states. -/
theorem claim_C6_counterexample :
    10 * SERVO_STEP = 15 ∧
    delta_servo1_of 15 = 0 ∧ delta_servo0_of 15 = 0 ∧
    delta_servo1_of (-15) = 0 ∧ delta_servo0_of (-15) = 0 ∧
    (0 : ℚ) ≠ SERVO_STEP := by
  norm_num [delta_servo0_of, delta_servo1_of, DEADZONE_X, DEADZONE_Y, SERVO_STEP, K_P]

/-- C6 (amended). An error of 10 × SERVO_STEP lies inside the dead-zones and gives a
zero delta; every error whose magnitude exceeds the axis dead-zone gives a delta of
exactly SERVO_STEP magnitude (K_P · error is clamped to ±SERVO_STEP, and beyond the
dead-zone the proportional term always exceeds the rate limit). -/
theorem claim_C6_clamp (e : ℚ) :
    (DEADZONE_X < |e| → |delta_servo1_of e| = SERVO_STEP) ∧
    (DEADZONE_Y < |e| → |delta_servo0_of e| = SERVO_STEP) ∧
    delta_servo1_of (10 * SERVO_STEP) = 0 ∧
    delta_servo0_of (10 * SERVO_STEP) = 0 := by
  refine ⟨fun h => delta1_sat h, fun h => delta0_sat h, ?_, ?_⟩ <;>
    norm_num [delta_servo0_of, delta_servo1_of, DEADZONE_X, DEADZONE_Y, SERVO_STEP, K_P]

/-- C6 witness: the amended theorem applied at the concrete error 100. -/
theorem claim_C6_witness :
    |delta_servo1_of 100| = SERVO_STEP ∧ |delta_servo0_of 100| = SERVO_STEP :=
  ⟨(claim_C6_clamp 100).1 (by norm_num [DEADZONE_X]),
   (claim_C6_clamp 100).2.1 (by norm_num [DEADZONE_Y])⟩

/-- C7. Every error whose magnitude is at most the axis dead-zone (boundary included)
produces a zero delta on that axis, and the corresponding joint angle is unchanged by
the tick (for the vertical axis the arm is untouched as well). -/
theorem claim_C7_deadzone (st : ActState) (tx ty e : ℚ) :
    (|e| ≤ DEADZONE_X → delta_servo1_of e = 0) ∧
    (|e| ≤ DEADZONE_Y → delta_servo0_of e = 0) ∧
    (st.inRange → |(CENTRE_X : ℚ) - tx| ≤ DEADZONE_X →
      (adjust_servo_angles_using_old_logic st tx ty).servo1 = st.servo1) ∧
    (st.inRange → |(CENTRE_Y : ℚ) - ty| ≤ DEADZONE_Y →
      (adjust_servo_angles_using_old_logic st tx ty).servo0 = st.servo0 ∧
      (adjust_servo_angles_using_old_logic st tx ty).arm = st.arm) := by
  refine ⟨fun h => delta1_dz h, fun h => delta0_dz h, ?_, ?_⟩
  · rintro ⟨_, _, h2, h3, _, _⟩ hex
    have hd1 : delta_servo1_of ((CENTRE_X : ℚ) - tx) = 0 := delta1_dz hex
    simp only [adjust_servo_angles_using_old_logic, hd1, add_zero]
    split <;> exact clamp180_eq_self h2 h3
  · rintro ⟨h0, h1, _, _, _, _⟩ hey
    have hd0 : delta_servo0_of ((CENTRE_Y : ℚ) - ty) = 0 := delta0_dz hey
    simp only [adjust_servo_angles_using_old_logic, hd0, sub_zero]
    rw [if_neg (by simp [lt_irrefl])]
    exact ⟨clamp180_eq_self h0 h1, rfl⟩

/-- C7 witness: the dead-zone theorem applied at the concrete state (120, 95, 90),
target (320, 180) (both errors are 0) and error 40 (the exact vertical dead-zone
boundary). -/
theorem claim_C7_witness :
    delta_servo1_of 40 = 0 ∧ delta_servo0_of 40 = 0 ∧
    (adjust_servo_angles_using_old_logic ⟨120, 95, 90⟩ 320 180).servo1 = 95 ∧
    (adjust_servo_angles_using_old_logic ⟨120, 95, 90⟩ 320 180).servo0 = 120 ∧
    (adjust_servo_angles_using_old_logic ⟨120, 95, 90⟩ 320 180).arm = 90 := by
  obtain ⟨ha, hb, hc, hd⟩ := claim_C7_deadzone ⟨120, 95, 90⟩ 320 180 40
  refine ⟨ha (by norm_num [DEADZONE_X]), hb (by norm_num [DEADZONE_Y]), ?_, ?_, ?_⟩
  · exact hc (by norm_num [ActState.inRange])
      (by norm_num [CENTRE_X, IMAGE_WIDTH, DEADZONE_X])
  · exact (hd (by norm_num [ActState.inRange])
      (by norm_num [CENTRE_Y, IMAGE_HEIGHT, DEADZONE_Y])).1
  · exact (hd (by norm_num [ActState.inRange])
      (by norm_num [CENTRE_Y, IMAGE_HEIGHT, DEADZONE_Y])).2

/-- C10. Angle-range safety: the initial angles are in [0, 180]; one control tick
preserves the range of all three tracked angles; the neutral-return cleanup preserves
it; every angle emitted by `set_servo_angle_with_deadzone` is clamped into [0, 180];
and `set_arm_angle_with_deadzone` (which clamps before calling `set_arm_position`)
never hits the ValueError branch, nor does `set_arm_position` on any clamped angle. -/
theorem claim_C10_range (st : ActState) (tx ty a : ℚ) (key : String) :
    initActState.inRange ∧
    (st.inRange → (adjust_servo_angles_using_old_logic st tx ty).inRange) ∧
    (st.inRange → (cleanup_servos st).inRange) ∧
    (∀ w ∈ set_servo_angle_with_deadzone a key, 0 ≤ w ∧ w ≤ 180) ∧
    (set_arm_angle_with_deadzone a).isSome ∧
    (set_arm_position (clamp180 a)).isSome := by
  have hc : ¬(clamp180 a < 0 ∨ 180 < clamp180 a) := by
    push_neg
    exact ⟨(clamp180_mem a).1, (clamp180_mem a).2⟩
  refine ⟨?_, adjust_inRange st tx ty, cleanup_inRange st, ?_, ?_, ?_⟩
  · norm_num [initActState, ActState.inRange, INITIAL_SERVO0_ANGLE,
      INITIAL_SERVO1_ANGLE, INITIAL_ARM_ANGLE]
  · intro w hw
    simp only [set_servo_angle_with_deadzone] at hw
    split at hw
    · rw [List.mem_singleton] at hw
      exact hw ▸ clamp180_mem a
    · exact absurd hw (List.not_mem_nil w)
  · simp only [set_arm_angle_with_deadzone, set_arm_position, in_deadzone, deadzones]
    rw [if_neg hc]
    norm_num
  · unfold set_arm_position
    rw [if_neg hc]
    rfl

/-- C10 witness: range safety applied at the concrete state (5, 170, 2), target
(320, 180), raw angle request 500 (clamped to 180 before any write). -/
theorem claim_C10_witness :
    (adjust_servo_angles_using_old_logic ⟨5, 170, 2⟩ 320 180).inRange ∧
    (cleanup_servos ⟨5, 170, 2⟩).inRange ∧
    (set_arm_angle_with_deadzone 500).isSome := by
  obtain ⟨_, hadj, hcl, _, harm, _⟩ := claim_C10_range ⟨5, 170, 2⟩ 320 180 500 "servo0"
  exact ⟨hadj (by norm_num [ActState.inRange]), hcl (by norm_num [ActState.inRange]), harm⟩

/-! ## Conflict Resolver (`check_detection_conflicts`) -/

/-- One element of a per-gallery conflict window: the tuple
`(timestamp, detection_id, x, y)` appended by `check_detection_conflicts`. -/
structure ConflictEntry where
  t : ℚ
  det : String
  x : ℚ
  y : ℚ
  deriving Repr, DecidableEq

/-- The two module-level variables `detection_conflicts` (a dict modelled as an
insertion-ordered association list) and `current_override`. -/
structure ConflictState where
  windows : List (String × List ConflictEntry)
  override : Option String
  deriving Repr, DecidableEq

/-- Dictionary read `detection_conflicts[g]`, defaulting to the `[]` installed by the
`if gallery_id not in detection_conflicts` branch. -/
def lookupWindow : List (String × List ConflictEntry) → String → List ConflictEntry
  | [], _ => []
  | (k, v) :: rest, g => if k = g then v else lookupWindow rest g

/-- Dictionary write `detection_conflicts[g] = v` (Python dicts keep insertion order;
a new key is appended at the end). -/
def setWindow : List (String × List ConflictEntry) → String → List ConflictEntry →
    List (String × List ConflictEntry)
  | [], g, v => [(g, v)]
  | (k, w) :: rest, g, v =>
    if k = g then (k, v) :: rest else (k, w) :: setWindow rest g v

/-- The *squared* Euclidean distance between the mean of a detection group's
positions and the frame centre. The source computes
`((avg_x - CENTRE_X)**2 + (avg_y - CENTRE_Y)**2) ** 0.5` and only ever *compares*
these distances; since the square root is strictly monotone on nonnegative reals,
comparing squared distances is equivalent, and keeps the embedding inside `ℚ`. -/
def sqDistToCentre (ps : List (ℚ × ℚ)) : ℚ :=
  let avg_x := (ps.map Prod.fst).sum / (ps.length : ℚ)
  let avg_y := (ps.map Prod.snd).sum / (ps.length : ℚ)
  (avg_x - (CENTRE_X : ℚ)) ^ 2 + (avg_y - (CENTRE_Y : ℚ)) ^ 2

/-- `detection_groups[det_id].append((x, y))`, creating the key at the end of the
dict if absent — the grouping loop of `check_detection_conflicts`. -/
def addToGroup : List (String × List (ℚ × ℚ)) → String → ℚ × ℚ →
    List (String × List (ℚ × ℚ))
  | [], k, p => [(k, [p])]
  | (k', ps) :: rest, k, p =>
    if k' = k then (k', ps ++ [p]) :: rest else (k', ps) :: addToGroup rest k p

/-- Groups the window entries by `detection_id`, keys in first-appearance order,
positions in entry order (the `for entry in recent_detections` loop). -/
def groupByDet (es : List ConflictEntry) : List (String × List (ℚ × ℚ)) :=
  es.foldl (fun gs e => addToGroup gs e.det (e.x, e.y)) []

/-- One iteration of the `for det_id, positions in detection_groups.items()` argmin
loop. The accumulator is `(closest_id, min_distance)`, with `min_distance = none`
standing for the initial `float('inf')` (which every real distance beats). -/
def argminStep (acc : Option String × Option ℚ) (g : String × List (ℚ × ℚ)) :
    Option String × Option ℚ :=
  match acc.2 with
  | none => (some g.1, some (sqDistToCentre g.2))
  | some m => if sqDistToCentre g.2 < m then (some g.1, some (sqDistToCentre g.2)) else acc

/-- The final `closest_id` after the argmin loop (`none` = Python `None`, reachable
only on an empty group dict). -/
def closestDetectionId (groups : List (String × List (ℚ × ℚ))) : Option String :=
  (groups.foldl argminStep (none, none)).1

/-- Python truthiness of `current_override` as used in
`if len(unique_detection_ids) == 1 and current_override:`
(`None` and the empty string are falsy). -/
def pyTruthy : Option String → Bool
  | none => false
  | some s => s != ""

/-- The window for `gallery_id` after eviction of entries older than
`DETECTION_WINDOW` and append of the new detection — the value of
`recent_detections` inside `check_detection_conflicts`. -/
def conflictWindowAfter (st : ConflictState) (now : ℚ) (gallery_id det_id : String)
    (cx cy : ℚ) : List ConflictEntry :=
  (lookupWindow st.windows gallery_id).filter (fun e => now - e.t < DETECTION_WINDOW)
    ++ [⟨now, det_id, cx, cy⟩]

/-- `check_detection_conflicts(gallery_id, detection_id, center_x, center_y)`:
returns the detection id to track (`Option` because the unreachable empty-group case
returns Python `None`) together with the updated module state. -/
def check_detection_conflicts (st : ConflictState) (now : ℚ)
    (gallery_id det_id : String) (cx cy : ℚ) : Option String × ConflictState :=
  let recent := conflictWindowAfter st now gallery_id det_id cx cy
  let uniqueCount := (recent.map ConflictEntry.det).dedup.length
  let windows' := setWindow st.windows gallery_id recent
  if 1 < uniqueCount ∧ CONFLICT_THRESHOLD ≤ recent.length then
    (closestDetectionId (groupByDet recent),
     { windows := windows', override := closestDetectionId (groupByDet recent) })
  else
    if uniqueCount = 1 ∧ pyTruthy st.override then
      (some det_id, { windows := windows', override := none })
    else
      (some det_id, { windows := windows', override := st.override })

/-! ### Argmin loop specification -/

theorem argmin_fold_spec (gs : List (String × List (ℚ × ℚ))) :
    ∀ (a : Option String) (b : Option ℚ),
      (∃ g1 ∈ gs, gs.foldl argminStep (a, b) = (some g1.1, some (sqDistToCentre g1.2)) ∧
        (∀ g2 ∈ gs, sqDistToCentre g1.2 ≤ sqDistToCentre g2.2) ∧
        (∀ m, b = some m → sqDistToCentre g1.2 ≤ m)) ∨
      (gs.foldl argminStep (a, b) = (a, b) ∧
        ∀ g1 ∈ gs, ∃ m, b = some m ∧ m ≤ sqDistToCentre g1.2) := by
  induction gs with
  | nil => intro a b; right; exact ⟨rfl, by simp⟩
  | cons g0 t ih =>
    intro a b
    cases b with
    | none =>
      have hstep : argminStep (a, none) g0 = (some g0.1, some (sqDistToCentre g0.2)) := rfl
      rw [List.foldl_cons, hstep]
      rcases ih (some g0.1) (some (sqDistToCentre g0.2)) with
        ⟨g1, hg1, heq, hmin, hle⟩ | ⟨heq, hall⟩
      · left
        refine ⟨g1, List.mem_cons_of_mem _ hg1, heq, ?_, fun m hm => Option.noConfusion hm⟩
        intro g2 hg2
        rcases List.mem_cons.mp hg2 with rfl | hg2
        · exact hle _ rfl
        · exact hmin g2 hg2
      · left
        refine ⟨g0, List.mem_cons_self g0 t, heq, ?_, fun m hm => Option.noConfusion hm⟩
        intro g2 hg2
        rcases List.mem_cons.mp hg2 with rfl | hg2
        · exact le_refl _
        · obtain ⟨m, hm, hlem⟩ := hall g2 hg2
          injection hm with hm
          exact hm ▸ hlem
    | some m =>
      have hstep : argminStep (a, some m) g0 =
          if sqDistToCentre g0.2 < m then (some g0.1, some (sqDistToCentre g0.2))
          else (a, some m) := rfl
      by_cases hlt : sqDistToCentre g0.2 < m
      · rw [List.foldl_cons, hstep, if_pos hlt]
        rcases ih (some g0.1) (some (sqDistToCentre g0.2)) with
          ⟨g1, hg1, heq, hmin, hle⟩ | ⟨heq, hall⟩
        · left
          refine ⟨g1, List.mem_cons_of_mem _ hg1, heq, ?_, ?_⟩
          · intro g2 hg2
            rcases List.mem_cons.mp hg2 with rfl | hg2
            · exact hle _ rfl
            · exact hmin g2 hg2
          · intro m' hm'
            injection hm' with hm'
            subst hm'
            exact le_trans (hle _ rfl) (le_of_lt hlt)
        · left
          refine ⟨g0, List.mem_cons_self g0 t, heq, ?_, ?_⟩
          · intro g2 hg2
            rcases List.mem_cons.mp hg2 with rfl | hg2
            · exact le_refl _
            · obtain ⟨m', hm', hlem⟩ := hall g2 hg2
              injection hm' with hm'
              exact hm' ▸ hlem
          · intro m' hm'
            injection hm' with hm'
            subst hm'
            exact le_of_lt hlt
      · rw [List.foldl_cons, hstep, if_neg hlt]
        rcases ih a (some m) with ⟨g1, hg1, heq, hmin, hle⟩ | ⟨heq, hall⟩
        · left
          refine ⟨g1, List.mem_cons_of_mem _ hg1, heq, ?_, hle⟩
          intro g2 hg2
          rcases List.mem_cons.mp hg2 with rfl | hg2
          · exact le_trans (hle m rfl) (not_lt.mp hlt)
          · exact hmin g2 hg2
        · right
          refine ⟨heq, ?_⟩
          intro g2 hg2
          rcases List.mem_cons.mp hg2 with rfl | hg2
          · exact ⟨m, rfl, not_lt.mp hlt⟩
          · exact hall g2 hg2

theorem addToGroup_ne_nil (gs : List (String × List (ℚ × ℚ))) (k : String) (p : ℚ × ℚ) :
    addToGroup gs k p ≠ [] := by
  cases gs with
  | nil => simp [addToGroup]
  | cons g t =>
    obtain ⟨k', ps⟩ := g
    unfold addToGroup
    split <;> simp

theorem groupFold_ne_nil (es : List ConflictEntry) :
    ∀ gs : List (String × List (ℚ × ℚ)), gs ≠ [] →
      es.foldl (fun gs e => addToGroup gs e.det (e.x, e.y)) gs ≠ [] := by
  induction es with
  | nil => intro gs h; exact h
  | cons e t ih =>
    intro gs _
    rw [List.foldl_cons]
    exact ih _ (addToGroup_ne_nil gs e.det (e.x, e.y))

theorem groupByDet_ne_nil {es : List ConflictEntry} (h : es ≠ []) : groupByDet es ≠ [] := by
  unfold groupByDet
  cases es with
  | nil => exact absurd rfl h
  | cons e t =>
    rw [List.foldl_cons]
    exact groupFold_ne_nil t _ (addToGroup_ne_nil [] e.det (e.x, e.y))

theorem closest_spec {groups : List (String × List (ℚ × ℚ))} (h : groups ≠ []) :
    ∃ c ps, closestDetectionId groups = some c ∧ (c, ps) ∈ groups ∧
      ∀ p ∈ groups, sqDistToCentre ps ≤ sqDistToCentre p.2 := by
  rcases argmin_fold_spec groups none none with ⟨g1, hg1, heq, hmin, _⟩ | ⟨_, hall⟩
  · exact ⟨g1.1, g1.2, by unfold closestDetectionId; rw [heq], hg1, fun p hp => hmin p hp⟩
  · cases groups with
    | nil => exact absurd rfl h
    | cons g t =>
      obtain ⟨m, hm, _⟩ := hall g (List.mem_cons_self g t)
      exact Option.noConfusion hm

/-- C3. When the post-update window for an identity holds at least
CONFLICT_THRESHOLD samples spanning more than one distinct detection id,
`check_detection_conflicts` groups the samples by detection id, returns a
detection id whose group mean is (weakly) closest to the frame centre in Euclidean
distance, and installs exactly that id as the trusted override. -/
theorem claim_C3_conflict (st : ConflictState) (now : ℚ) (g det : String) (cx cy : ℚ)
    (h1 : 1 < ((conflictWindowAfter st now g det cx cy).map ConflictEntry.det).dedup.length)
    (h2 : CONFLICT_THRESHOLD ≤ (conflictWindowAfter st now g det cx cy).length) :
    ∃ c ps,
      (check_detection_conflicts st now g det cx cy).1 = some c ∧
      (check_detection_conflicts st now g det cx cy).2.override = some c ∧
      (c, ps) ∈ groupByDet (conflictWindowAfter st now g det cx cy) ∧
      ∀ p ∈ groupByDet (conflictWindowAfter st now g det cx cy),
        sqDistToCentre ps ≤ sqDistToCentre p.2 := by
  have hne : conflictWindowAfter st now g det cx cy ≠ [] := by
    simp [conflictWindowAfter]
  obtain ⟨c, ps, hc, hmem, hmin⟩ := closest_spec (groupByDet_ne_nil hne)
  refine ⟨c, ps, ?_, ?_, hmem, hmin⟩ <;>
  · simp only [check_detection_conflicts]
    rw [if_pos ⟨h1, h2⟩]
    simp [hc]

/-- C3 witness: an identity window with three fresh samples split across detection
ids "a" (far from centre) and "b" (exactly at the centre (320, 180)); the resolver
picks "b" and installs it as the override. -/
theorem claim_C3_witness :
    ∃ c ps,
      (check_detection_conflicts
        ⟨[("1", [⟨0, "a", 100, 100⟩, ⟨mkRat 1 2, "b", 320, 180⟩])], none⟩
        (mkRat 9 10) "1" "b" 320 180).1 = some c ∧
      (check_detection_conflicts
        ⟨[("1", [⟨0, "a", 100, 100⟩, ⟨mkRat 1 2, "b", 320, 180⟩])], none⟩
        (mkRat 9 10) "1" "b" 320 180).2.override = some c ∧
      (c, ps) ∈ groupByDet (conflictWindowAfter
        ⟨[("1", [⟨0, "a", 100, 100⟩, ⟨mkRat 1 2, "b", 320, 180⟩])], none⟩
        (mkRat 9 10) "1" "b" 320 180) ∧
      ∀ p ∈ groupByDet (conflictWindowAfter
        ⟨[("1", [⟨0, "a", 100, 100⟩, ⟨mkRat 1 2, "b", 320, 180⟩])], none⟩
        (mkRat 9 10) "1" "b" 320 180),
        sqDistToCentre ps ≤ sqDistToCentre p.2 := by
  apply claim_C3_conflict
  · norm_num [conflictWindowAfter, lookupWindow, List.filter, DETECTION_WINDOW]
    decide
  · norm_num [conflictWindowAfter, lookupWindow, List.filter, DETECTION_WINDOW,
      CONFLICT_THRESHOLD]

/-- C8. When the post-update window holds exactly one distinct detection id, the
resolver installs no override, clears any active override, and returns the incoming
record's own detection id. (The hypothesis `st.override ≠ some ""` reflects that an
override, when present, is a detection id that passed the tracker's non-empty guard;
Python's truthiness test would fail to clear an empty-string override.) -/
theorem claim_C8_quiescence (st : ConflictState) (now : ℚ) (g det : String) (cx cy : ℚ)
    (h1 : ((conflictWindowAfter st now g det cx cy).map ConflictEntry.det).dedup.length = 1)
    (hov : st.override ≠ some "") :
    (check_detection_conflicts st now g det cx cy).1 = some det ∧
    (check_detection_conflicts st now g det cx cy).2.override = none := by
  simp only [check_detection_conflicts]
  rw [if_neg (by rw [h1]; simp)]
  cases hcase : st.override with
  | none =>
    rw [if_neg (by simp [pyTruthy])]
    exact ⟨rfl, rfl⟩
  | some s =>
    have hs : s ≠ "" := fun h => hov (by rw [hcase, h])
    rw [if_pos ⟨h1, by simp [pyTruthy, hs]⟩]
    exact ⟨rfl, rfl⟩

/-- C8 witness: a single-id window (first sighting of detection "d") produces no
override and returns "d". -/
theorem claim_C8_witness :
    (check_detection_conflicts ⟨[], none⟩ 0 "1" "d" 0 0).1 = some "d" ∧
    (check_detection_conflicts ⟨[], none⟩ 0 "1" "d" 0 0).2.override = none := by
  apply claim_C8_quiescence
  · norm_num [conflictWindowAfter, lookupWindow, List.filter, DETECTION_WINDOW, List.dedup]
  · simp

/-! ## CSV-based target selection (`get_latest_csv_row`, `track_face`) -/

/-- A text cell of the history log as the tracker sees it. CSV cells are strings; we
model each cell together with its parse outcome: `nullLike` is a cell in
`[None, '', 'null']` (the tracker's null guard), `num q` is a cell that `float(...)`
parses to the exact value `q`, `junk` is any other unparseable text. -/
inductive Cell
  | nullLike
  | num (q : ℚ)
  | junk
  deriving Repr, DecidableEq

/-- One data row of `tmp/face_info_log.csv` in the *tracker's* indexing:
`row[0] .. row[6]` as named by `track_face` (`Timestamp, Rec_BufferSet,
Detection_ID, Gallery_ID, Label, Center_X, Center_Y`). `offset` is the result of
`int(row[1])` — `none` when the conversion raises and `get_latest_csv_row` skips the
row. -/
structure CsvRow where
  ts : String
  offset : Option Int
  det : String
  gallery : String
  label : String
  cx : Cell
  cy : Cell
  deriving Repr, DecidableEq

/-- The membership test `s in [None, '', 'null']` on a string cell. -/
def isNullStr (s : String) : Bool := s == "" || s == "null"

def Cell.isNullLike : Cell → Bool
  | .nullLike => true
  | _ => false

/-- `float(cell)`: succeeds exactly on numeric cells. -/
def Cell.toRatVal : Cell → Option ℚ
  | .num q => some q
  | _ => none

/-- The sort key of `valid_lines.sort(key=lambda x: x[0])`. -/
def offsetLe (a b : Int × CsvRow) : Prop := a.1 ≤ b.1

instance : DecidableRel offsetLe := fun a b => inferInstanceAs (Decidable (a.1 ≤ b.1))

instance : IsTotal (Int × CsvRow) offsetLe := ⟨fun a b => le_total a.1 b.1⟩

instance : IsTrans (Int × CsvRow) offsetLe := ⟨fun _ _ _ h1 h2 => le_trans h1 h2⟩

/-- `get_latest_csv_row(csv_path)`. The input is `none` when the file is missing
(`FileNotFoundError`), otherwise the list of data rows (the header row of the file is
already stripped, matching `rows[1:]`; `len(rows) <= 1` is then `data = []`). Rows
whose `Rec_BufferSet` fails `int()` are skipped; the remainder is stably sorted by
offset ascending (Python's `list.sort`, modelled by `List.insertionSort`, which is
also stable) and the last element — the largest offset, latest file position among
equals — is returned. -/
def get_latest_csv_row (file : Option (List CsvRow)) : Option CsvRow :=
  match file with
  | none => none
  | some data =>
    if data.length = 0 then none
    else
      let valid := data.filterMap (fun r => r.offset.map (fun o => (o, r)))
      ((valid.insertionSort offsetLe).getLast?).map Prod.snd

/-- The per-iteration state of `track_face`: `last_offset`, the conflict-resolver
module state, and the actuator angles. -/
structure TrackState where
  lastOffset : Int
  conflict : ConflictState
  act : ActState
  deriving Repr, DecidableEq

/-- The per-iteration environment of one `track_face` loop pass: the target gallery
id re-read from `tmp/target_face.txt`, the current wall-clock time, and the CSV
contents. -/
structure TrackTick where
  target : String
  now : ℚ
  file : Option (List CsvRow)

/-- One iteration of the `while True` loop of `track_face` (modulo sleeping):
select the latest row, apply the gallery/null guards, parse, consult
`check_detection_conflicts`, and invoke the control law only when the resolved id
matches and the offset strictly exceeds `last_offset`. The second component is the
actuator command issued this tick (`none` = no `adjust_servo_angles_using_old_logic`
call). -/
def track_face_step (t : TrackTick) (st : TrackState) : TrackState × Option (ℚ × ℚ) :=
  match get_latest_csv_row t.file with
  | none => (st, none)
  | some r =>
    if r.gallery = t.target ∧ ¬isNullStr r.det ∧ ¬r.cx.isNullLike ∧ ¬r.cy.isNullLike then
      match r.offset, r.cx.toRatVal, r.cy.toRatVal with
      | some o, some x, some y =>
        let res := check_detection_conflicts st.conflict t.now r.gallery r.det x y
        if res.1 = some r.det then
          if st.lastOffset < o then
            ({ lastOffset := o, conflict := res.2,
               act := adjust_servo_angles_using_old_logic st.act x y }, some (x, y))
          else ({ st with conflict := res.2 }, none)
        else ({ st with conflict := res.2 }, none)
      | _, _, _ => (st, none)
    else (st, none)

/-- The offsets at which actuator commands are issued along a run of the loop. -/
def track_emits : List TrackTick → TrackState → List Int
  | [], _ => []
  | t :: ts, st =>
    let res := track_face_step t st
    match res.2 with
    | some _ => res.1.lastOffset :: track_emits ts res.1
    | none => track_emits ts res.1

theorem track_step_lastOffset (t : TrackTick) (st : TrackState) :
    ((track_face_step t st).2 = none → (track_face_step t st).1.lastOffset = st.lastOffset) ∧
    ((track_face_step t st).2 ≠ none → st.lastOffset < (track_face_step t st).1.lastOffset) := by
  cases hget : get_latest_csv_row t.file with
  | none => simp [track_face_step, hget]
  | some r =>
    simp only [track_face_step, hget]
    split
    · split
      · split
        · split
          · exact ⟨fun h => by simp at h, fun _ => by assumption⟩
          · exact ⟨fun _ => rfl, fun h => absurd rfl h⟩
        · exact ⟨fun _ => rfl, fun h => absurd rfl h⟩
      all_goals exact ⟨fun _ => rfl, fun h => absurd rfl h⟩
    · exact ⟨fun _ => rfl, fun h => absurd rfl h⟩

theorem getLast?_mem' {α : Type} {l : List α} {x : α} (h : l.getLast? = some x) : x ∈ l := by
  obtain ⟨hne, rfl⟩ := List.mem_getLast?_eq_getLast h
  exact List.getLast_mem hne

theorem sorted_getLast?_max {l : List (Int × CsvRow)} (h : l.Sorted offsetLe) :
    ∀ x ∈ l, ∀ y, l.getLast? = some y → offsetLe x y := by
  induction l with
  | nil => simp
  | cons a t ih =>
    intro x hx y hy
    cases t with
    | nil =>
      have hxa : x = a := by simpa using hx
      have hya : a = y := by simpa using hy
      subst hxa
      subst hya
      show x.1 ≤ x.1
      exact le_refl _
    | cons b t2 =>
      rw [List.getLast?_cons_cons] at hy
      have hmem : y ∈ b :: t2 := getLast?_mem' hy
      rcases List.mem_cons.mp hx with rfl | hx2
      · exact (List.sorted_cons.mp h).1 y hmem
      · exact ih (List.sorted_cons.mp h).2 x hx2 y hy

/-- `get_latest_csv_row` returns a member row whose offset parses and is maximal
among all parseable offsets of the file. -/
theorem get_latest_spec (data : List CsvRow) (r : CsvRow)
    (h : get_latest_csv_row (some data) = some r) :
    ∃ o, r.offset = some o ∧ r ∈ data ∧
      ∀ r' ∈ data, ∀ o', r'.offset = some o' → o' ≤ o := by
  simp only [get_latest_csv_row] at h
  split at h
  · exact absurd h (by simp)
  · rw [Option.map_eq_some'] at h
    obtain ⟨p, hp, hpr⟩ := h
    have hmem : p ∈ data.filterMap (fun r => r.offset.map (fun o => (o, r))) :=
      (List.perm_insertionSort offsetLe _).mem_iff.mp (getLast?_mem' hp)
    rw [List.mem_filterMap] at hmem
    obtain ⟨a, ha, hfa⟩ := hmem
    rw [Option.map_eq_some'] at hfa
    obtain ⟨o, hoff, heq⟩ := hfa
    subst heq
    subst hpr
    refine ⟨o, hoff, ha, ?_⟩
    intro r' hr' o' hoff'
    have hv : (o', r') ∈ data.filterMap (fun r => r.offset.map (fun o => (o, r))) :=
      List.mem_filterMap.mpr ⟨r', hr', by rw [hoff']; rfl⟩
    exact sorted_getLast?_max (List.sorted_insertionSort offsetLe _) (o', r')
      ((List.perm_insertionSort offsetLe _).mem_iff.mpr hv) (o, a) hp

theorem track_emits_spec (ticks : List TrackTick) :
    ∀ st : TrackState,
      (∀ o ∈ track_emits ticks st, st.lastOffset < o) ∧
      (track_emits ticks st).Pairwise (· < ·) := by
  induction ticks with
  | nil => intro st; exact ⟨by simp [track_emits], by simp [track_emits]⟩
  | cons t ts ih =>
    intro st
    obtain ⟨hstep_none, hstep_some⟩ := track_step_lastOffset t st
    simp only [track_emits]
    cases hres : (track_face_step t st).2 with
    | none =>
      have heq : (track_face_step t st).1.lastOffset = st.lastOffset := hstep_none hres
      obtain ⟨hb, hp⟩ := ih (track_face_step t st).1
      exact ⟨fun o ho => heq ▸ hb o ho, hp⟩
    | some p =>
      have hlt : st.lastOffset < (track_face_step t st).1.lastOffset :=
        hstep_some (by rw [hres]; simp)
      obtain ⟨hb, hp⟩ := ih (track_face_step t st).1
      constructor
      · intro o ho
        rcases List.mem_cons.mp ho with rfl | ho
        · exact hlt
        · exact lt_trans hlt (hb o ho)
      · exact List.Pairwise.cons (fun o ho => hb o ho) hp

/-- C2. Idempotent consumption: a selected row whose offset is at most
`last_offset` issues no actuator command (the control law is not invoked and the
actuator state is untouched); along any run, the offsets at which commands are
issued are strictly increasing, hence pairwise distinct — at most one command per
`sequence_offset`, and replaying an identical offset yields no second command. -/
theorem claim_C2_idempotent (t : TrackTick) (st : TrackState) (r : CsvRow) (o : Int)
    (ticks : List TrackTick) :
    (get_latest_csv_row t.file = some r → r.offset = some o → o ≤ st.lastOffset →
      (track_face_step t st).2 = none ∧ (track_face_step t st).1.act = st.act) ∧
    (∀ o1 ∈ track_emits ticks st, st.lastOffset < o1) ∧
    (track_emits ticks st).Pairwise (· < ·) ∧
    (track_emits ticks st).Nodup := by
  refine ⟨?_, (track_emits_spec ticks st).1, (track_emits_spec ticks st).2,
    (track_emits_spec ticks st).2.imp fun h => ne_of_lt h⟩
  intro hget hoff hle
  simp only [track_face_step, hget]
  split
  · cases hcx : r.cx.toRatVal with
    | none => simp [hoff, hcx]
    | some x =>
      cases hcy : r.cy.toRatVal with
      | none => simp [hoff, hcx, hcy]
      | some y =>
        simp only [hoff, hcx, hcy]
        split
        · rw [if_neg (not_lt.mpr hle)]
          exact ⟨rfl, rfl⟩
        · exact ⟨rfl, rfl⟩
  · exact ⟨rfl, rfl⟩

/-- A tick whose only row carries the already-consumed offset 5. -/
def c2Tick : TrackTick := ⟨"1", 0, some [⟨"t", some 5, "d", "1", "p", Cell.num 1, Cell.num 2⟩]⟩

def c2State : TrackState := ⟨5, ⟨[], none⟩, ⟨120, 95, 90⟩⟩

/-- C2 witness: replaying the offset-5 record with `last_offset = 5` issues no
command and leaves the actuator untouched; the emitted-offset list of the run is
duplicate-free. -/
theorem claim_C2_witness :
    (track_face_step c2Tick c2State).2 = none ∧
    (track_face_step c2Tick c2State).1.act = c2State.act ∧
    (track_emits [c2Tick] c2State).Nodup := by
  obtain ⟨h1, _, _, h4⟩ := claim_C2_idempotent c2Tick c2State
    ⟨"t", some 5, "d", "1", "p", Cell.num 1, Cell.num 2⟩ 5 [c2Tick]
  obtain ⟨ha, hb⟩ := h1 (by decide) rfl (by decide)
  exact ⟨ha, hb, h4⟩

theorem toRatVal_some_not_null {c : Cell} {x : ℚ} (h : c.toRatVal = some x) :
    c.isNullLike = false := by
  cases c <;> simp_all [Cell.toRatVal, Cell.isNullLike]

/-- A fresh, fully valid record for the target identity "1" at offset 5. -/
def c5RowMatch : CsvRow := ⟨"t1", some 5, "d1", "1", "p", Cell.num 500, Cell.num 50⟩

/-- A newer record (offset 6) for a *different* identity "2". -/
def c5RowOther : CsvRow := ⟨"t2", some 6, "d2", "2", "q", Cell.num 100, Cell.num 100⟩

def c5Hist : List CsvRow := [c5RowMatch, c5RowOther]

def c5State : TrackState := ⟨-1, ⟨[], none⟩, ⟨120, 95, 90⟩⟩

/-- C5 (counterexample). The history contains a fresh record for the target (gallery
"1", non-null detection id and position, offset 5 > last consumed −1), yet the tick
feeds nothing to the control law and changes nothing: the selector only examines the
row with the globally largest offset (the identity-"2" row at offset 6), not the
freshest *matching* row. -/
theorem claim_C5_counterexample :
    c5RowMatch ∈ c5Hist ∧ c5RowMatch.gallery = "1" ∧ isNullStr c5RowMatch.det = false ∧
    c5RowMatch.offset = some 5 ∧ c5State.lastOffset < 5 ∧
    c5RowMatch.cx.toRatVal = some 500 ∧ c5RowMatch.cy.toRatVal = some 50 ∧
    track_face_step ⟨"1", 0, some c5Hist⟩ c5State = (c5State, none) := by
  decide

/-- C5 (amended). The Target Selector examines only the single row with the largest
parseable `Rec_BufferSet` in the file (on ties, the latest such row): a command is
issued on a tick iff that row passes the identity, null, parse, conflict-resolver
and strict-offset guards, in which case the command carries that row's position;
and the row returned by `get_latest_csv_row` is a member of the file whose offset is
maximal among all parseable offsets. An older matching row never produces a command
when a newer non-matching row exists. -/
theorem claim_C5_latest_only (t : TrackTick) (st : TrackState) :
    ((track_face_step t st).2 ≠ none ↔
      ∃ r o x y, get_latest_csv_row t.file = some r ∧
        r.gallery = t.target ∧ isNullStr r.det = false ∧
        r.offset = some o ∧ r.cx.toRatVal = some x ∧ r.cy.toRatVal = some y ∧
        (check_detection_conflicts st.conflict t.now r.gallery r.det x y).1 = some r.det ∧
        st.lastOffset < o) ∧
    (∀ r o x y, get_latest_csv_row t.file = some r → r.gallery = t.target →
      isNullStr r.det = false → r.offset = some o → r.cx.toRatVal = some x →
      r.cy.toRatVal = some y →
      (check_detection_conflicts st.conflict t.now r.gallery r.det x y).1 = some r.det →
      st.lastOffset < o → (track_face_step t st).2 = some (x, y)) ∧
    (∀ data r, t.file = some data → get_latest_csv_row t.file = some r →
      ∃ o, r.offset = some o ∧ r ∈ data ∧
        ∀ r' ∈ data, ∀ o', r'.offset = some o' → o' ≤ o) := by
  have hmpr : ∀ r o x y, get_latest_csv_row t.file = some r → r.gallery = t.target →
      isNullStr r.det = false → r.offset = some o → r.cx.toRatVal = some x →
      r.cy.toRatVal = some y →
      (check_detection_conflicts st.conflict t.now r.gallery r.det x y).1 = some r.det →
      st.lastOffset < o → (track_face_step t st).2 = some (x, y) := by
    intro r o x y hget hgal hnull hoff hcx hcy hconf hlt
    simp only [track_face_step, hget]
    rw [if_pos ⟨hgal, by simp [hnull], by simp [toRatVal_some_not_null hcx],
      by simp [toRatVal_some_not_null hcy]⟩]
    simp only [hoff, hcx, hcy]
    rw [if_pos hconf, if_pos hlt]
  refine ⟨⟨?_, ?_⟩, hmpr, ?_⟩
  · intro hne
    cases hget : get_latest_csv_row t.file with
    | none => simp only [track_face_step, hget] at hne; exact absurd rfl hne
    | some r =>
      simp only [track_face_step, hget] at hne
      by_cases hguard : r.gallery = t.target ∧ ¬isNullStr r.det = true ∧
          ¬r.cx.isNullLike = true ∧ ¬r.cy.isNullLike = true
      · rw [if_pos hguard] at hne
        cases ho : r.offset with
        | none => simp [ho] at hne
        | some o =>
          cases hcx : r.cx.toRatVal with
          | none => simp [ho, hcx] at hne
          | some x =>
            cases hcy : r.cy.toRatVal with
            | none => simp [ho, hcx, hcy] at hne
            | some y =>
              simp only [ho, hcx, hcy] at hne
              by_cases hconf :
                  (check_detection_conflicts st.conflict t.now r.gallery r.det x y).1 =
                    some r.det
              · rw [if_pos hconf] at hne
                by_cases hlt : st.lastOffset < o
                · exact ⟨r, o, x, y, rfl, hguard.1, by simpa using hguard.2.1, ho, hcx, hcy,
                    hconf, hlt⟩
                · rw [if_neg hlt] at hne
                  exact absurd rfl hne
              · rw [if_neg hconf] at hne
                exact absurd rfl hne
      · rw [if_neg hguard] at hne
        exact absurd rfl hne
  · rintro ⟨r, o, x, y, hget, hgal, hnull, hoff, hcx, hcy, hconf, hlt⟩
    rw [hmpr r o x y hget hgal hnull hoff hcx hcy hconf hlt]
    simp
  · intro data r hfile hget
    rw [hfile] at hget
    exact get_latest_spec data r hget

/-- A single fully-valid fresh row for the target at offset 7. -/
def c5FreshRow : CsvRow := ⟨"t3", some 7, "d", "1", "p", Cell.num 500, Cell.num 50⟩

/-- C5 witness: when the largest-offset row itself passes every guard, the tick
issues the command carrying exactly that row's position. -/
theorem claim_C5_witness :
    (track_face_step ⟨"1", 0, some [c5FreshRow]⟩ ⟨-1, ⟨[], none⟩, ⟨120, 95, 90⟩⟩).2 =
      some (500, 50) := by
  apply (claim_C5_latest_only ⟨"1", 0, some [c5FreshRow]⟩ ⟨-1, ⟨[], none⟩, ⟨120, 95, 90⟩⟩).2.1
      c5FreshRow 7 500 50
  · decide
  · rfl
  · rfl
  · rfl
  · rfl
  · rfl
  · decide
  · decide

/-! ## History-log writer (`monitor_detections.py`, `write_frame_info`) -/

theorem toDigitsCore_len (b : Nat) (f : Nat) : ∀ (n : Nat) (ds : List Char),
    ds.length ≤ (Nat.toDigitsCore b f n ds).length := by
  induction f with
  | zero => intro n ds; simp [Nat.toDigitsCore]
  | succ f ih =>
    intro n ds
    simp only [Nat.toDigitsCore]
    split
    · simp
    · exact le_trans (by simp) (ih _ _)

theorem toDigits_len (b n : Nat) : 1 ≤ (Nat.toDigits b n).length := by
  unfold Nat.toDigits
  simp only [Nat.toDigitsCore]
  split
  · simp
  · exact le_trans (by simp) (toDigitsCore_len b n (n / b) _)

theorem natRepr_len (n : Nat) : 1 ≤ (Nat.repr n).length := by
  unfold Nat.repr
  rw [show (Nat.toDigits 10 n).asString.length = (Nat.toDigits 10 n).length from rfl]
  exact toDigits_len 10 n

/-- Python renders every int as a nonempty decimal string. -/
theorem intToString_ne_empty (n : Int) : toString n ≠ "" := by
  show Int.repr n ≠ ""
  intro h
  have hlen : (Int.repr n).length = 0 := by rw [h]; rfl
  cases n with
  | ofNat m =>
    have := natRepr_len m
    rw [show Int.repr (Int.ofNat m) = Nat.repr m from rfl] at hlen
    omega
  | negSucc m =>
    rw [show Int.repr (Int.negSucc m) = "-" ++ Nat.repr (m+1) from rfl,
      String.length_append] at hlen
    have := natRepr_len (m+1)
    omega

/-- The `face_info` dict of `monitor_detections.py` (`get_face_info` plus the
`original_buffer` key stored by `monitor_files` before any recognition row is
written). JSON unique ids and pixel centres are ints; `none` is Python `None`. -/
structure FaceInfo where
  mode0_id : Option Int
  mode1_id : Option Int
  label : Option String
  center_x : Option Int
  center_y : Option Int
  original_buffer : Option Int
  deriving Repr, DecidableEq

/-- How `csv.writer` renders an optional int cell: Python `None` becomes the empty
string, an int its decimal text. -/
def csvOptIntCell : Option Int → String
  | none => ""
  | some n => toString n

/-- `str(...)` inside the f-string `f"cp{face_info['original_buffer']}"`
(`None` would render as "None"). -/
def pyStrOptInt : Option Int → String
  | none => "None"
  | some n => toString n

/-- `rec_buffer or 'null'` — Python truthiness, so both `None` and `0` give
the `'null'` sentinel. -/
def recBufferOrNull : Option Int → String
  | none => "null"
  | some n => if n = 0 then "null" else toString n

/-- `face_info['mode1_id'] or 'nd'` — the not-in-gallery sentinel for falsy ids. -/
def galleryCell : Option Int → String
  | none => "nd"
  | some n => if n = 0 then "nd" else toString n

/-- `face_info['label'] or 'nd'`. -/
def labelCell : Option String → String
  | none => "nd"
  | some s => if s = "" then "nd" else s

/-- `write_frame_info(frame_num, rec_buffer, face_info)`: the row appended to
`face_info_log.csv` (the timestamp string is passed in as `ts`). -/
def write_frame_info (ts : String) (frame_num : Int) (rec_buffer : Option Int)
    (face_info : Option FaceInfo) : List String :=
  match face_info with
  | none => [ts, toString frame_num, "null", "null", "null", "null", "null", "null"]
  | some f =>
    let rec_buffer_str :=
      if rec_buffer ≠ f.original_buffer then "cp" ++ pyStrOptInt f.original_buffer
      else recBufferOrNull rec_buffer
    [ts, toString frame_num, rec_buffer_str, csvOptIntCell f.mode0_id,
     galleryCell f.mode1_id, labelCell f.label,
     csvOptIntCell f.center_x, csvOptIntCell f.center_y]

/-- The header row written by `monitor_files` when it initialises the CSV. -/
def monitorHeaderRow : List String :=
  ["Timestamp", "Current_Frame", "Rec_BufferSet", "Detection_ID",
   "Gallery_ID", "Label", "Center_X", "Center_Y"]

/-- C9 (counterexample). The persisted rows have EIGHT ordered columns
(`Timestamp, Current_Frame, Rec_BufferSet, Detection_ID, Gallery_ID, Label,
Center_X, Center_Y`), not the seven the claim lists: column 1 is the frame number,
not `Rec_BufferSet`. Moreover, in a recognition row an absent centre is rendered by
`csv.writer` as the *empty* string, not as a sentinel literal. -/
theorem claim_C9_counterexample :
    (write_frame_info "t" 5 none none).length = 8 ∧ 8 ≠ 7 ∧
    (write_frame_info "t" 5 none none).get? 1 = some "5" ∧
    monitorHeaderRow.get? 1 = some "Current_Frame" ∧
    monitorHeaderRow.length = 8 ∧
    (write_frame_info "t" 5 (some 7)
      (some ⟨some 3, none, none, none, none, some 7⟩)).get? 6 = some "" := by
  decide

theorem galleryCell_ne_empty (m : Option Int) : galleryCell m ≠ "" := by
  cases m with
  | none => simp [galleryCell]
  | some n =>
    by_cases hn : n = 0
    · simp [galleryCell, hn]
    · simp only [galleryCell]
      rw [if_neg hn]
      exact intToString_ne_empty n

/-- C9 (amended). Every written row has exactly the eight ordered columns
`Timestamp, Current_Frame, Rec_BufferSet, Detection_ID, Gallery_ID, Label,
Center_X, Center_Y`; a no-recognition row renders every field after the frame
number as the `'null'` sentinel; a recognition row renders the gallery id through
`or 'nd'`, so a detected-but-unrecognized face gets the non-empty `'nd'` sentinel
and the gallery cell is never the empty string. -/
theorem claim_C9_format (ts : String) (n : Int) (rb : Option Int) (fi : Option FaceInfo)
    (f : FaceInfo) (m : Option Int) :
    (write_frame_info ts n rb fi).length = 8 ∧
    monitorHeaderRow.length = 8 ∧
    (write_frame_info ts n rb fi).get? 0 = some ts ∧
    (write_frame_info ts n rb fi).get? 1 = some (toString n) ∧
    (fi = none → ∀ i, 2 ≤ i → i ≤ 7 → (write_frame_info ts n rb fi).get? i = some "null") ∧
    (fi = some f →
      (write_frame_info ts n rb fi).get? 3 = some (csvOptIntCell f.mode0_id) ∧
      (write_frame_info ts n rb fi).get? 4 = some (galleryCell f.mode1_id) ∧
      (write_frame_info ts n rb fi).get? 5 = some (labelCell f.label)) ∧
    galleryCell m ≠ "" ∧
    ((m = none ∨ m = some 0) → galleryCell m = "nd") := by
  refine ⟨?_, rfl, ?_, ?_, ?_, ?_, galleryCell_ne_empty m, ?_⟩
  · cases fi <;> rfl
  · cases fi <;> rfl
  · cases fi <;> rfl
  · intro h
    subst h
    intro i h2 h7
    interval_cases i <;> rfl
  · intro h
    subst h
    exact ⟨rfl, rfl, rfl⟩
  · rintro (rfl | rfl) <;> simp [galleryCell]

/-- C9 witness: the amended format theorem applied to a concrete no-recognition row
and a concrete unrecognized-face row. -/
theorem claim_C9_witness :
    (write_frame_info "t" 5 none none).get? 5 = some "null" ∧
    (write_frame_info "t" 5 (some 7)
      (some ⟨some 3, none, some "alice", some 320, some 180, some 7⟩)).get? 4 =
      some (galleryCell none) ∧
    galleryCell (some 12) ≠ "" := by
  refine ⟨?_, ?_, ?_⟩
  · exact (claim_C9_format "t" 5 none none
      ⟨some 3, none, some "alice", some 320, some 180, some 7⟩ none).2.2.2.2.1 rfl 5
      (by norm_num) (by norm_num)
  · exact ((claim_C9_format "t" 5 (some 7)
      (some ⟨some 3, none, some "alice", some 320, some 180, some 7⟩)
      ⟨some 3, none, some "alice", some 320, some 180, some 7⟩ none).2.2.2.2.2.1 rfl).2.1
  · exact (claim_C9_format "t" 5 none none
      ⟨some 3, none, some "alice", some 320, some 180, some 7⟩ (some 12)).2.2.2.2.2.2.1

/-! ## History Buffer bounds (spec-modelled)

The two source files only ever *append* to `tmp/face_info_log.csv`
(`write_frame_info` opens the log with mode `'a'`; `monitor_files` writes the
header once); the prune/capacity side of the History Buffer described by the
spec (§3 HistoryBuffer, §4.1) is part of the repository's record-management
code that is not among the files under verification. It is therefore modelled
here from the spec's words: entries are (arrival_time, rendered_row) pairs kept
in arrival order, and `prune(now)` "removes entries whose age exceeds the
configured maximum or whose count exceeds the configured capacity
(oldest-first)". -/

/-- Modelled from the spec: one History Buffer entry, `(arrival_time, rendered_row)`. -/
structure HistEntry where
  arrival : ℚ
  row : List String
  deriving Repr, DecidableEq

/-- Modelled from the spec: `append(record)` stores the rendered row with its
arrival time at the newest end. -/
def histAppend (b : List HistEntry) (now : ℚ) (row : List String) : List HistEntry :=
  b ++ [⟨now, row⟩]

/-- Modelled from the spec: `prune(now)` drops the entries whose age exceeds
`maxAge`, then drops oldest entries until at most `capacity` remain. -/
def histPrune (capacity : ℕ) (maxAge now : ℚ) (b : List HistEntry) : List HistEntry :=
  let fresh := b.filter (fun e => now - e.arrival ≤ maxAge)
  fresh.drop (fresh.length - capacity)

/-- On an arrival-sorted buffer, the age filter removes exactly an oldest prefix. -/
theorem filter_age_drop (maxAge now : ℚ) :
    ∀ b : List HistEntry, b.Sorted (fun e1 e2 => e1.arrival ≤ e2.arrival) →
      ∃ k, b.filter (fun e => now - e.arrival ≤ maxAge) = b.drop k := by
  intro b
  induction b with
  | nil => intro _; exact ⟨0, rfl⟩
  | cons a t ih =>
    intro hs
    obtain ⟨ha, ht⟩ := List.sorted_cons.mp hs
    by_cases hp : now - a.arrival ≤ maxAge
    · refine ⟨0, ?_⟩
      rw [List.drop_zero, List.filter_cons_of_pos (by simpa using hp),
        List.filter_eq_self.mpr ?_]
      intro e he
      simp only [decide_eq_true_eq]
      have := ha e he
      linarith
    · obtain ⟨k, hk⟩ := ih ht
      refine ⟨k + 1, ?_⟩
      rw [List.filter_cons_of_neg (by simpa using hp), hk]
      rfl

/-- C4. After any prune of an arrival-sorted buffer: the buffer holds at most
`capacity` entries, every remaining entry's age is at most `maxAge`, and the
removed entries form a prefix at the oldest end (the result is a drop of the
original buffer). -/
theorem claim_C4_bounds (capacity : ℕ) (maxAge now : ℚ) (b : List HistEntry)
    (hsorted : b.Sorted (fun e1 e2 => e1.arrival ≤ e2.arrival)) :
    (histPrune capacity maxAge now b).length ≤ capacity ∧
    (∀ e ∈ histPrune capacity maxAge now b, now - e.arrival ≤ maxAge) ∧
    (∃ k, histPrune capacity maxAge now b = b.drop k) := by
  refine ⟨?_, ?_, ?_⟩
  · simp only [histPrune, List.length_drop]
    omega
  · intro e he
    simp only [histPrune] at he
    have hf := List.mem_of_mem_drop he
    have := List.of_mem_filter hf
    simpa using this
  · obtain ⟨k, hk⟩ := filter_age_drop maxAge now b hsorted
    simp only [histPrune, hk, List.drop_drop]
    exact ⟨_, rfl⟩

/-- C4 witness: pruning a concrete four-entry buffer (capacity 2, max age 10,
now 20) keeps at most two entries, all fresh, removed only from the oldest end. -/
theorem claim_C4_witness :
    (histPrune 2 10 20 [⟨5, ["x"]⟩, ⟨12, ["y"]⟩, ⟨15, ["z"]⟩, ⟨18, ["w"]⟩]).length ≤ 2 ∧
    (∀ e ∈ histPrune 2 10 20 [⟨5, ["x"]⟩, ⟨12, ["y"]⟩, ⟨15, ["z"]⟩, ⟨18, ["w"]⟩],
      (20 : ℚ) - e.arrival ≤ 10) ∧
    (∃ k, histPrune 2 10 20 [⟨5, ["x"]⟩, ⟨12, ["y"]⟩, ⟨15, ["z"]⟩, ⟨18, ["w"]⟩] =
      ([⟨5, ["x"]⟩, ⟨12, ["y"]⟩, ⟨15, ["z"]⟩, ⟨18, ["w"]⟩] : List HistEntry).drop k) :=
  claim_C4_bounds 2 10 20 _ (by decide)

end TappasFace
